import Mathlib

/-!
Teleoperation tick of `Robot.cpp`.

A shallow embedding of `Robot::TeleopPeriodic` (src/main/cpp/Robot.cpp) and of the
globals it reads and writes.

* The four mutable globals `driveMode`, `togglePressed`, `gripperState`, `grabberOpen`
  become the fields of `RobotState`; the tick takes the state and returns the new one.
* What the tick reads from the two controllers and from the limelight table is the
  per-tick snapshot `Snapshot`.
* Every call on a motor controller or a solenoid is recorded, in program order, as an
  `Event`; the tick returns the list of the events it emitted.
* The controller axes are exact rationals: `+`, `-`, `*`, `/`, `std::abs`, `max` and
  comparisons on them are the exact operations, without rounding or infinities.
* A value read from the limelight table is a `Double`: an exact rational or NaN, since
  nothing in the code guards that read. The steering computation and every value sent
  to a motor are `Double`s, with the comparisons and arithmetic of C++ on NaN.
-/

namespace Robot

/-! ## Constants (Robot.cpp lines 41-42 and 70-72) -/

/-- Throttle cap applied to the driver axes, `kThrottleCap = 0.6`. -/
def kThrottleCap : ℚ := 6 / 10

/-- Cap applied to the wrist axes, `kGripperCap = 0.25`. -/
def kGripperCap : ℚ := 25 / 100

/-- Proportional gain of the steering correction, `kP = 0.1`. -/
def kP : ℚ := 1 / 10

/-- Largest steering magnitude, `maxCommand = 0.045`. -/
def maxCommand : ℚ := 45 / 1000

/-- Smallest non-zero steering magnitude, `minCommand = 0.001`. -/
def minCommand : ℚ := 1 / 1000

/-! ## Doubles that may be NaN -/

/-- A C++ `double` as read from outside the program: not-a-number, or a number, taken
as an exact rational. -/
inductive Double where
  | nan
  | num (q : ℚ)
  deriving DecidableEq, Repr

/-- The comparison `a != b`: true as soon as one side is NaN. -/
def Double.ne : Double → Double → Bool
  | Double.num a, Double.num b => decide (a ≠ b)
  | _, _ => true

/-- The comparison `a < b`: false as soon as one side is NaN. -/
def Double.lt : Double → Double → Bool
  | Double.num a, Double.num b => decide (a < b)
  | _, _ => false

/-- The comparison `a > b`: false as soon as one side is NaN. -/
def Double.gt : Double → Double → Bool
  | Double.num a, Double.num b => decide (a > b)
  | _, _ => false

/-- The product `a * b`: NaN as soon as one side is NaN. -/
def Double.mul : Double → Double → Double
  | Double.num a, Double.num b => Double.num (a * b)
  | _, _ => Double.nan

/-- The unary minus `-a`. -/
def Double.neg : Double → Double
  | Double.num a => Double.num (-a)
  | Double.nan => Double.nan

/-- The function `std::abs(a)`. -/
def Double.abs : Double → Double
  | Double.num a => Double.num |a|
  | Double.nan => Double.nan

/-! ## Data model (Robot.cpp lines 44-82) -/

/-- The enum `DriveMode{kArcadeDrive, kMecanumDrive}`. -/
inductive DriveMode where
  | kArcadeDrive
  | kMecanumDrive
  deriving DecidableEq, Repr

/-- The enum `GripperState{kClosed, kOpen}`. -/
inductive GripperState where
  | kClosed
  | kOpen
  deriving DecidableEq, Repr

/-- The eight `rev::CANSparkMax` objects. -/
inductive Motor where
  | leftFront
  | leftRear
  | rightFront
  | rightRear
  | liftArm
  | extendArm
  | rotateWrist
  | pivotWrist
  deriving DecidableEq, Repr

/-- The three `frc::Solenoid` objects. -/
inductive Solenoid where
  | solenoid1
  | solenoid2
  | solenoid3
  deriving DecidableEq, Repr

/-- One call made by the tick on an actuator object. -/
inductive Event where
  | setInverted (m : Motor) (b : Bool)
  | motorSet (m : Motor) (v : Double)
  | solenoidSet (s : Solenoid) (b : Bool)
  deriving DecidableEq, Repr

/-- The mutable globals that survive from one tick to the next. -/
structure RobotState where
  driveMode : DriveMode
  togglePressed : Bool
  gripperState : GripperState
  grabberOpen : Bool
  deriving DecidableEq, Repr

/-- The values of the globals at program start (lines 77, 78, 81, 82). -/
def initialState : RobotState :=
  { driveMode := DriveMode.kArcadeDrive
    togglePressed := false
    gripperState := GripperState.kClosed
    grabberOpen := false }

/-- What one tick reads: the raw axes and buttons of `driverController` and
`grabberController`, and the limelight table (a key has a number or is absent).
`driverBButton` is the `brakeButton` reading of line 95, which the tick never uses. -/
structure Snapshot where
  driverAxis0 : ℚ
  driverAxis1 : ℚ
  driverAxis4 : ℚ
  driverLeftStickButton : Bool
  driverRightStickButton : Bool
  driverBButton : Bool
  grabberAxis0 : ℚ
  grabberAxis1 : ℚ
  grabberAxis4 : ℚ
  grabberAxis5 : ℚ
  grabberBButton : Bool
  limelightTable : String → Option Double

/-- The call `table->GetNumber(key, defaultValue)`: the stored value, or the default
when the key is absent. -/
def GetNumber (table : String → Option Double) (key : String) (defaultValue : Double) :
    Double :=
  (table key).getD defaultValue

/-- The function `std::copysign(mag, sgn)`: the magnitude of `mag` with the sign of
`sgn`. The rationals have no negative zero, so a zero `sgn` counts as positive. -/
def copysign (mag sgn : ℚ) : ℚ :=
  if sgn < 0 then -|mag| else |mag|

/-- The function `std::copysign` on doubles. The sign of a NaN `sgn` is not specified;
it is taken as positive here, a case the tick never reaches. -/
def Double.copysign : Double → Double → Double
  | Double.num mag, Double.num sgn => Double.num (Robot.copysign mag sgn)
  | Double.num mag, Double.nan => Double.num |mag|
  | Double.nan, _ => Double.nan

/-! ## The blocks of `TeleopPeriodic` -/

/-- Lines 104-117: the drive-mode toggle. Returns the new `driveMode`, the new
`togglePressed` and the solenoid calls made. -/
def toggleDriveMode (driveMode : DriveMode) (togglePressed toggleButton : Bool) :
    DriveMode × Bool × List Event :=
  if toggleButton && !togglePressed then
    let driveMode1 :=
      if driveMode = DriveMode.kArcadeDrive then DriveMode.kMecanumDrive
      else DriveMode.kArcadeDrive
    if driveMode1 = DriveMode.kArcadeDrive then
      (driveMode1, true,
        [Event.solenoidSet Solenoid.solenoid1 true, Event.solenoidSet Solenoid.solenoid2 false])
    else
      (driveMode1, true,
        [Event.solenoidSet Solenoid.solenoid1 false, Event.solenoidSet Solenoid.solenoid2 true])
  else if !toggleButton then
    (driveMode, false, [])
  else
    (driveMode, togglePressed, [])

/-- Lines 119-130: the drivetrain outputs for the current drive mode. -/
def driveOutputs (driveMode : DriveMode) (leftX leftY rightX : ℚ) : List Event :=
  if driveMode = DriveMode.kArcadeDrive then
    [ Event.motorSet Motor.leftFront (Double.num (leftY - leftX)),
      Event.motorSet Motor.leftRear (Double.num (leftY - leftX)),
      Event.motorSet Motor.rightFront (Double.num (leftY + leftX)),
      Event.motorSet Motor.rightRear (Double.num (leftY + leftX)) ]
  else
    let denominator : ℚ := max (|leftY| + |(-leftX)| + |(-rightX)|) 1
    [ Event.motorSet Motor.leftFront (Double.num ((leftY + -leftX + -rightX) / denominator)),
      Event.motorSet Motor.leftRear (Double.num ((leftY - -leftX + -rightX) / denominator)),
      Event.motorSet Motor.rightFront
        (Double.num ((leftY - -leftX - -rightX) / denominator)),
      Event.motorSet Motor.rightRear
        (Double.num ((leftY + -leftX - -rightX) / denominator)) ]

/-- Lines 135-144: the steering command for a target offset. A NaN offset passes the
test `!= 0.0` and fails both clamp tests. -/
def steeringAdjust (targetOffset : Double) : Double :=
  if Double.ne targetOffset (Double.num 0) then
    let s0 := Double.mul (Double.num kP) targetOffset
    let s1 :=
      if Double.lt (Double.abs s0) (Double.num minCommand) then
        Double.copysign (Double.num minCommand) s0
      else s0
    let s2 :=
      if Double.gt (Double.abs s1) (Double.num maxCommand) then
        Double.copysign (Double.num maxCommand) s1
      else s1
    s2
  else
    Double.num 0

/-- Lines 133-149: the vision-targeting override. -/
def targetOutputs (targetButton : Bool) (limelightTable : String → Option Double) :
    List Event :=
  if targetButton then
    let targetOffset := GetNumber limelightTable "tx" (Double.num 0)
    let steer := steeringAdjust targetOffset
    [ Event.motorSet Motor.leftFront (Double.neg steer),
      Event.motorSet Motor.leftRear (Double.neg steer),
      Event.motorSet Motor.rightFront steer,
      Event.motorSet Motor.rightRear steer ]
  else
    []

/-- Lines 160-170: the gripper toggle. Returns the new `gripperState`, the new
`grabberOpen` and the solenoid calls made. -/
def toggleGripper (gripperState : GripperState) (grabberOpen grabberButton : Bool) :
    GripperState × Bool × List Event :=
  if grabberButton && !grabberOpen then
    let gripperState1 :=
      if gripperState = GripperState.kClosed then GripperState.kOpen
      else GripperState.kClosed
    if gripperState1 = GripperState.kClosed then
      (gripperState1, true, [Event.solenoidSet Solenoid.solenoid3 true])
    else
      (gripperState1, true, [Event.solenoidSet Solenoid.solenoid3 false])
  else if !grabberButton then
    (gripperState, false, [])
  else
    (gripperState, grabberOpen, [])

/-- The method `Robot::TeleopPeriodic` (lines 86-171): one tick. Returns the new values
of the globals and the actuator calls in program order. -/
def TeleopPeriodic (s : RobotState) (i : Snapshot) : RobotState × List Event :=
  let leftX := i.driverAxis0 * kThrottleCap
  let leftY := i.driverAxis1 * kThrottleCap
  let rightX := i.driverAxis4 * kThrottleCap
  let toggleButton := i.driverLeftStickButton
  let targetButton := i.driverRightStickButton
  let extendArmX := i.grabberAxis0
  let liftArmY := i.grabberAxis1
  let rotateWristX := i.grabberAxis4 * kGripperCap
  let pivotWristY := i.grabberAxis5 * kGripperCap
  let grabberButton := i.grabberBButton
  let d := toggleDriveMode s.driveMode s.togglePressed toggleButton
  let g := toggleGripper s.gripperState s.grabberOpen grabberButton
  ( { driveMode := d.1
      togglePressed := d.2.1
      gripperState := g.1
      grabberOpen := g.2.1 },
    [Event.setInverted Motor.rightFront true, Event.setInverted Motor.rightRear true]
      ++ d.2.2
      ++ driveOutputs d.1 leftX leftY rightX
      ++ targetOutputs targetButton i.limelightTable
      ++ [ Event.motorSet Motor.liftArm (Double.num (-liftArmY)),
           Event.motorSet Motor.extendArm (Double.num extendArmX),
           Event.motorSet Motor.rotateWrist (Double.num rotateWristX),
           Event.motorSet Motor.pivotWrist (Double.num pivotWristY) ]
      ++ g.2.2 )

/-! ## Observations on a run -/

/-- The state after a sequence of ticks, one per snapshot, from state `s`. -/
def runTicks (s : RobotState) : List Snapshot → RobotState
  | [] => s
  | i :: rest => runTicks (TeleopPeriodic s i).1 rest

/-- The values sent to motor `m` by `Set`, in program order. -/
def motorValues (m : Motor) : List Event → List Double
  | [] => []
  | Event.motorSet m1 v :: rest =>
      if m1 = m then v :: motorValues m rest else motorValues m rest
  | _ :: rest => motorValues m rest

/-- The last value sent to motor `m`, if any: the command the motor is left with. -/
def finalCommand (m : Motor) (events : List Event) : Option Double :=
  (motorValues m events).getLast?

/-- The reading of the toggle button on the last tick of a sequence; released when
no tick has run yet. -/
def lastToggleButton (ticks : List Snapshot) : Bool :=
  match ticks.getLast? with
  | some i => i.driverLeftStickButton
  | none => false

/-- The reading of the grabber button on the last tick of a sequence; released when
no tick has run yet. -/
def lastGrabberButton (ticks : List Snapshot) : Bool :=
  match ticks.getLast? with
  | some i => i.grabberBButton
  | none => false

/-- A snapshot with every axis centred, every button released and an empty limelight
table; the concrete inputs below are variations of it. -/
def restSnapshot : Snapshot :=
  { driverAxis0 := 0
    driverAxis1 := 0
    driverAxis4 := 0
    driverLeftStickButton := false
    driverRightStickButton := false
    driverBButton := false
    grabberAxis0 := 0
    grabberAxis1 := 0
    grabberAxis4 := 0
    grabberAxis5 := 0
    grabberBButton := false
    limelightTable := fun _ => none }

/-- The state with the drive mode switched to mecanum and nothing held. -/
def mecanumState : RobotState :=
  { driveMode := DriveMode.kMecanumDrive
    togglePressed := false
    gripperState := GripperState.kClosed
    grabberOpen := false }

/-- A limelight table that holds `offset` under the key `"tx"` and nothing else. -/
def tableWithTx (offset : Double) : String → Option Double :=
  fun key => if key = "tx" then some offset else none

/-- The values sent to solenoid `sol` by `Set`, in program order. -/
def solenoidValues (sol : Solenoid) : List Event → List Bool
  | [] => []
  | Event.solenoidSet s1 b :: rest =>
      if s1 = sol then b :: solenoidValues sol rest else solenoidValues sol rest
  | _ :: rest => solenoidValues sol rest

/-- The number of released-to-pressed edges in a sequence of button readings, `prev`
being the reading before the first one. -/
def risingEdges (prev : Bool) : List Bool → Nat
  | [] => 0
  | b :: rest => (if b && !prev then 1 else 0) + risingEdges b rest

/-- Every raw controller axis the tick reads lies in `[-1, 1]`. -/
def axesInRange (i : Snapshot) : Prop :=
  |i.driverAxis0| ≤ 1 ∧ |i.driverAxis1| ≤ 1 ∧ |i.driverAxis4| ≤ 1
    ∧ |i.grabberAxis0| ≤ 1 ∧ |i.grabberAxis1| ≤ 1 ∧ |i.grabberAxis4| ≤ 1
    ∧ |i.grabberAxis5| ≤ 1

/-! ## Helper lemmas -/

theorem toggleDriveMode_flag (m : DriveMode) (p b : Bool) :
    (toggleDriveMode m p b).2.1 = b := by
  cases m <;> cases p <;> cases b <;> rfl

theorem toggleGripper_flag (g : GripperState) (p b : Bool) :
    (toggleGripper g p b).2.1 = b := by
  cases g <;> cases p <;> cases b <;> rfl

theorem toggleDriveMode_mode_ne_iff (m : DriveMode) (p b : Bool) :
    (toggleDriveMode m p b).1 ≠ m ↔ (b = true ∧ p = false) := by
  cases m <;> cases p <;> cases b <;> decide

theorem toggleGripper_state_ne_iff (g : GripperState) (p b : Bool) :
    (toggleGripper g p b).1 ≠ g ↔ (b = true ∧ p = false) := by
  cases g <;> cases p <;> cases b <;> decide

theorem runTicks_append (s : RobotState) (xs ys : List Snapshot) :
    runTicks s (xs ++ ys) = runTicks (runTicks s xs) ys := by
  induction xs generalizing s with
  | nil => rfl
  | cons x xs ih => simpa [runTicks] using ih (TeleopPeriodic s x).1

theorem runTicks_togglePressed (s : RobotState) (ticks : List Snapshot) (i : Snapshot) :
    (runTicks s (ticks ++ [i])).togglePressed = i.driverLeftStickButton := by
  rw [runTicks_append]
  simp [runTicks, TeleopPeriodic, toggleDriveMode_flag]

theorem runTicks_grabberOpen (s : RobotState) (ticks : List Snapshot) (i : Snapshot) :
    (runTicks s (ticks ++ [i])).grabberOpen = i.grabberBButton := by
  rw [runTicks_append]
  simp [runTicks, TeleopPeriodic, toggleGripper_flag]

theorem togglePressed_eq_last (ticks : List Snapshot) :
    (runTicks initialState ticks).togglePressed = lastToggleButton ticks := by
  rcases List.eq_nil_or_concat ticks with h | ⟨pre, i, h⟩
  · subst h; rfl
  · subst h
    simp [lastToggleButton, runTicks_togglePressed]

theorem grabberOpen_eq_last (ticks : List Snapshot) :
    (runTicks initialState ticks).grabberOpen = lastGrabberButton ticks := by
  rcases List.eq_nil_or_concat ticks with h | ⟨pre, i, h⟩
  · subst h; rfl
  · subst h
    simp [lastGrabberButton, runTicks_grabberOpen]

theorem motorValues_append (m : Motor) (xs ys : List Event) :
    motorValues m (xs ++ ys) = motorValues m xs ++ motorValues m ys := by
  induction xs with
  | nil => rfl
  | cons e xs ih =>
    cases e with
    | setInverted m1 b => simpa [motorValues] using ih
    | motorSet m1 v =>
      by_cases h : m1 = m
      · simp [motorValues, h, ih]
      · simp [motorValues, h, ih]
    | solenoidSet s1 b => simpa [motorValues] using ih

theorem motorValues_toggleDriveMode (m : Motor) (mode : DriveMode) (p b : Bool) :
    motorValues m (toggleDriveMode mode p b).2.2 = [] := by
  cases mode <;> cases p <;> cases b <;> rfl

theorem motorValues_toggleGripper (m : Motor) (g : GripperState) (p b : Bool) :
    motorValues m (toggleGripper g p b).2.2 = [] := by
  cases g <;> cases p <;> cases b <;> rfl

/-- The values a tick sends to a motor are those of the drivetrain block, then those of
the targeting block, then those of the arm block. -/
theorem motorValues_tick (m : Motor) (s : RobotState) (i : Snapshot) :
    motorValues m (TeleopPeriodic s i).2
      = motorValues m (driveOutputs (TeleopPeriodic s i).1.driveMode
            (i.driverAxis0 * kThrottleCap) (i.driverAxis1 * kThrottleCap)
            (i.driverAxis4 * kThrottleCap))
        ++ motorValues m (targetOutputs i.driverRightStickButton i.limelightTable)
        ++ motorValues m
            [ Event.motorSet Motor.liftArm (Double.num (-i.grabberAxis1)),
              Event.motorSet Motor.extendArm (Double.num i.grabberAxis0),
              Event.motorSet Motor.rotateWrist (Double.num (i.grabberAxis4 * kGripperCap)),
              Event.motorSet Motor.pivotWrist (Double.num (i.grabberAxis5 * kGripperCap)) ] := by
  simp only [TeleopPeriodic, motorValues_append, motorValues_toggleDriveMode,
    motorValues_toggleGripper, List.append_nil]
  simp [motorValues]

/-- A sum of three signed terms over the mecanum denominator has magnitude at most 1. -/
theorem abs_div_denominator_le (a b c n : ℚ) (h : |n| ≤ |a| + |b| + |c|) :
    |n / max (|a| + |b| + |c|) 1| ≤ 1 := by
  have hpos : (0 : ℚ) < max (|a| + |b| + |c|) 1 :=
    lt_of_lt_of_le one_pos (le_max_right _ _)
  rw [abs_div, abs_of_pos hpos, div_le_one hpos]
  exact le_trans h (le_max_left _ _)

/-- With the target button pressed, the last value a drive motor is sent is the one of
the targeting block. -/
theorem finalCommand_target (s : RobotState) (i : Snapshot)
    (htarget : i.driverRightStickButton = true) :
    finalCommand Motor.leftFront (TeleopPeriodic s i).2
        = some (Double.neg (steeringAdjust (GetNumber i.limelightTable "tx" (Double.num 0))))
    ∧ finalCommand Motor.leftRear (TeleopPeriodic s i).2
        = some (Double.neg (steeringAdjust (GetNumber i.limelightTable "tx" (Double.num 0))))
    ∧ finalCommand Motor.rightFront (TeleopPeriodic s i).2
        = some (steeringAdjust (GetNumber i.limelightTable "tx" (Double.num 0)))
    ∧ finalCommand Motor.rightRear (TeleopPeriodic s i).2
        = some (steeringAdjust (GetNumber i.limelightTable "tx" (Double.num 0))) := by
  simp only [finalCommand, motorValues_tick, htarget]
  cases (TeleopPeriodic s i).1.driveMode <;>
    simp [driveOutputs, targetOutputs, motorValues]

theorem solenoidValues_append (sol : Solenoid) (xs ys : List Event) :
    solenoidValues sol (xs ++ ys) = solenoidValues sol xs ++ solenoidValues sol ys := by
  induction xs with
  | nil => rfl
  | cons e xs ih =>
    cases e with
    | setInverted m1 b => simpa [solenoidValues] using ih
    | motorSet m1 v => simpa [solenoidValues] using ih
    | solenoidSet s1 b =>
      by_cases h : s1 = sol
      · simp [solenoidValues, h, ih]
      · simp [solenoidValues, h, ih]

theorem solenoidValues_driveOutputs (sol : Solenoid) (mode : DriveMode) (x y r : ℚ) :
    solenoidValues sol (driveOutputs mode x y r) = [] := by
  cases mode <;> simp [driveOutputs, solenoidValues]

theorem solenoidValues_targetOutputs (sol : Solenoid) (b : Bool)
    (t : String → Option Double) :
    solenoidValues sol (targetOutputs b t) = [] := by
  cases b <;> simp [targetOutputs, solenoidValues]

/-- The values a tick sends to a solenoid are those of the drive-mode toggle, then those
of the gripper toggle. -/
theorem solenoidValues_tick (sol : Solenoid) (s : RobotState) (i : Snapshot) :
    solenoidValues sol (TeleopPeriodic s i).2
      = solenoidValues sol
          (toggleDriveMode s.driveMode s.togglePressed i.driverLeftStickButton).2.2
        ++ solenoidValues sol
          (toggleGripper s.gripperState s.grabberOpen i.grabberBButton).2.2 := by
  simp only [TeleopPeriodic, solenoidValues_append, solenoidValues_driveOutputs,
    solenoidValues_targetOutputs, List.append_nil]
  simp [solenoidValues]

theorem toggleDriveMode_parity_step (m : DriveMode) (p b : Bool) (n : Nat) :
    ((toggleDriveMode m p b).1 = DriveMode.kMecanumDrive ↔ ¬ Odd n)
      ↔ (m = DriveMode.kMecanumDrive ↔ ¬ Odd ((if b && !p then 1 else 0) + n)) := by
  cases m <;> cases p <;> cases b <;>
    simp [toggleDriveMode, Nat.odd_iff] <;> omega

theorem toggleGripper_parity_step (g : GripperState) (p b : Bool) (n : Nat) :
    ((toggleGripper g p b).1 = GripperState.kOpen ↔ ¬ Odd n)
      ↔ (g = GripperState.kOpen ↔ ¬ Odd ((if b && !p then 1 else 0) + n)) := by
  cases g <;> cases p <;> cases b <;>
    simp [toggleGripper, Nat.odd_iff] <;> omega

/-- Parity of the toggle edges: a run of ticks from any state ends in mecanum exactly
when it started in mecanum and saw an even number of edges, or started in arcade and
saw an odd number. -/
theorem runTicks_driveMode_parity (s : RobotState) (ticks : List Snapshot) :
    (runTicks s ticks).driveMode = DriveMode.kMecanumDrive
      ↔ (s.driveMode = DriveMode.kMecanumDrive
          ↔ ¬ Odd (risingEdges s.togglePressed
              (ticks.map fun i => i.driverLeftStickButton))) := by
  induction ticks generalizing s with
  | nil => simp [runTicks, risingEdges]
  | cons i rest ih =>
    rcases s with ⟨m, p, g, q⟩
    have hflag : (TeleopPeriodic ⟨m, p, g, q⟩ i).1.togglePressed = i.driverLeftStickButton :=
      toggleDriveMode_flag _ _ _
    have hmode : (TeleopPeriodic ⟨m, p, g, q⟩ i).1.driveMode
        = (toggleDriveMode m p i.driverLeftStickButton).1 := rfl
    simp only [runTicks, List.map_cons, risingEdges, ih, hflag, hmode]
    exact toggleDriveMode_parity_step _ _ _ _

/-- Parity of the grabber edges, as for the toggle edges. -/
theorem runTicks_gripperState_parity (s : RobotState) (ticks : List Snapshot) :
    (runTicks s ticks).gripperState = GripperState.kOpen
      ↔ (s.gripperState = GripperState.kOpen
          ↔ ¬ Odd (risingEdges s.grabberOpen (ticks.map fun i => i.grabberBButton))) := by
  induction ticks generalizing s with
  | nil => simp [runTicks, risingEdges]
  | cons i rest ih =>
    rcases s with ⟨m, p, g, q⟩
    have hflag : (TeleopPeriodic ⟨m, p, g, q⟩ i).1.grabberOpen = i.grabberBButton :=
      toggleGripper_flag _ _ _
    have hmode : (TeleopPeriodic ⟨m, p, g, q⟩ i).1.gripperState
        = (toggleGripper g q i.grabberBButton).1 := rfl
    simp only [runTicks, List.map_cons, risingEdges, ih, hflag, hmode]
    exact toggleGripper_parity_step _ _ _ _

/-! ## Mode state machines -/

/-- C1: in every run of ticks from the initial state, the tick that follows the ticks
`ticks` changes `driveMode` exactly when the toggle button reads pressed on it and read
released on the tick before (released when there is no tick before); a tick on which
the button is still held from the tick before leaves `driveMode` as it was. -/
theorem driveMode_changes_iff_rising_edge (ticks : List Snapshot) (i : Snapshot) :
    ((runTicks initialState (ticks ++ [i])).driveMode ≠ (runTicks initialState ticks).driveMode
        ↔ (i.driverLeftStickButton = true ∧ lastToggleButton ticks = false))
    ∧ (i.driverLeftStickButton = true → lastToggleButton ticks = true →
        (runTicks initialState (ticks ++ [i])).driveMode
          = (runTicks initialState ticks).driveMode) := by
  have hrun : (runTicks initialState (ticks ++ [i])).driveMode
      = (toggleDriveMode (runTicks initialState ticks).driveMode
          (lastToggleButton ticks) i.driverLeftStickButton).1 := by
    rw [runTicks_append, ← togglePressed_eq_last]
    rfl
  rw [hrun]
  refine ⟨toggleDriveMode_mode_ne_iff _ _ _, fun hb hp => ?_⟩
  by_contra hne
  have h := (toggleDriveMode_mode_ne_iff _ _ _).1 hne
  rw [hp] at h
  exact Bool.noConfusion h.2

/-- C2: in every run of ticks from the initial state, the tick that follows the ticks
`ticks` changes `gripperState` exactly when the grabber button reads pressed on it and
read released on the tick before (released when there is no tick before); a tick on
which the button is still held from the tick before leaves `gripperState` as it was. -/
theorem gripperState_changes_iff_rising_edge (ticks : List Snapshot) (i : Snapshot) :
    ((runTicks initialState (ticks ++ [i])).gripperState
          ≠ (runTicks initialState ticks).gripperState
        ↔ (i.grabberBButton = true ∧ lastGrabberButton ticks = false))
    ∧ (i.grabberBButton = true → lastGrabberButton ticks = true →
        (runTicks initialState (ticks ++ [i])).gripperState
          = (runTicks initialState ticks).gripperState) := by
  have hrun : (runTicks initialState (ticks ++ [i])).gripperState
      = (toggleGripper (runTicks initialState ticks).gripperState
          (lastGrabberButton ticks) i.grabberBButton).1 := by
    rw [runTicks_append, ← grabberOpen_eq_last]
    rfl
  rw [hrun]
  refine ⟨toggleGripper_state_ne_iff _ _ _, fun hb hp => ?_⟩
  by_contra hne
  have h := (toggleGripper_state_ne_iff _ _ _).1 hne
  rw [hp] at h
  exact Bool.noConfusion h.2

/-- C3: from every state and on every snapshot, a second tick on the same snapshot
leaves the four persistent globals as the first tick left them, and so does any number
of further ticks on that snapshot: while a button stays held each mode changes at most
once. -/
theorem tick_twice_same_state (s : RobotState) (i : Snapshot) :
    (TeleopPeriodic (TeleopPeriodic s i).1 i).1 = (TeleopPeriodic s i).1
    ∧ ∀ n : Nat, runTicks s (List.replicate (n + 1) i) = (TeleopPeriodic s i).1 := by
  have h2 : ∀ t : RobotState,
      (TeleopPeriodic (TeleopPeriodic t i).1 i).1 = (TeleopPeriodic t i).1 := by
    intro t
    rcases t with ⟨m, p, g, q⟩
    cases m <;> cases p <;> cases g <;> cases q <;>
      cases hb : i.driverLeftStickButton <;> cases hg : i.grabberBButton <;>
      simp [TeleopPeriodic, toggleDriveMode, toggleGripper, hb, hg]
  refine ⟨h2 s, fun n => ?_⟩
  induction n generalizing s with
  | zero => rfl
  | succ k ih =>
    have hstep : runTicks s (List.replicate (k + 1 + 1) i)
        = runTicks (TeleopPeriodic s i).1 (List.replicate (k + 1) i) := rfl
    rw [hstep, ih (TeleopPeriodic s i).1, h2 s]

/-- C12: on a tick where the drive-mode transition fires (toggle button pressed, flag
false), solenoid 1 is sent exactly `true` and solenoid 2 exactly `false` when the new
mode is arcade, and solenoid 1 `false` and solenoid 2 `true` when it is mecanum; on a
tick where the gripper transition fires, solenoid 3 is sent exactly `true` when the new
gripper state is closed and exactly `false` when it is open. -/
theorem transition_solenoid_commands (s : RobotState) (i : Snapshot) :
    (i.driverLeftStickButton = true → s.togglePressed = false →
      ((TeleopPeriodic s i).1.driveMode = DriveMode.kArcadeDrive →
        solenoidValues Solenoid.solenoid1 (TeleopPeriodic s i).2 = [true]
        ∧ solenoidValues Solenoid.solenoid2 (TeleopPeriodic s i).2 = [false])
      ∧ ((TeleopPeriodic s i).1.driveMode = DriveMode.kMecanumDrive →
        solenoidValues Solenoid.solenoid1 (TeleopPeriodic s i).2 = [false]
        ∧ solenoidValues Solenoid.solenoid2 (TeleopPeriodic s i).2 = [true]))
    ∧ (i.grabberBButton = true → s.grabberOpen = false →
      ((TeleopPeriodic s i).1.gripperState = GripperState.kClosed →
        solenoidValues Solenoid.solenoid3 (TeleopPeriodic s i).2 = [true])
      ∧ ((TeleopPeriodic s i).1.gripperState = GripperState.kOpen →
        solenoidValues Solenoid.solenoid3 (TeleopPeriodic s i).2 = [false])) := by
  rcases s with ⟨m, p, g, q⟩
  refine ⟨fun hb hp => ?_, fun hb hp => ?_⟩
  · simp only at hp
    subst hp
    simp only [solenoidValues_tick]
    cases m <;> cases g <;> cases q <;> cases hg : i.grabberBButton <;>
      simp [TeleopPeriodic, toggleDriveMode, toggleGripper, solenoidValues, hb, hg]
  · simp only at hp
    subst hp
    simp only [solenoidValues_tick]
    cases m <;> cases g <;> cases p <;> cases ht : i.driverLeftStickButton <;>
      simp [TeleopPeriodic, toggleDriveMode, toggleGripper, solenoidValues, hb, ht]

/-- A concrete firing tick: pressing both the toggle button and the grabber button in
the initial state switches to mecanum and open, and sends solenoid 1 `false`,
solenoid 2 `true` and solenoid 3 `false`. -/
theorem transition_solenoid_commands_witness :
    solenoidValues Solenoid.solenoid1
        (TeleopPeriodic initialState
          { restSnapshot with driverLeftStickButton := true, grabberBButton := true }).2
      = [false]
    ∧ solenoidValues Solenoid.solenoid2
        (TeleopPeriodic initialState
          { restSnapshot with driverLeftStickButton := true, grabberBButton := true }).2
      = [true]
    ∧ solenoidValues Solenoid.solenoid3
        (TeleopPeriodic initialState
          { restSnapshot with driverLeftStickButton := true, grabberBButton := true }).2
      = [false] :=
  have h := transition_solenoid_commands initialState
    { restSnapshot with driverLeftStickButton := true, grabberBButton := true }
  ⟨((h.1 rfl rfl).2 rfl).1, ((h.1 rfl rfl).2 rfl).2, (h.2 rfl rfl).2 rfl⟩

/-- C13: on a tick where the toggle button is pressed while `togglePressed` is already
true, `driveMode` and `togglePressed` are unchanged and nothing is sent to solenoids 1
and 2; likewise for the grabber button, `grabberOpen`, `gripperState` and solenoid 3.
In general the tick sends something to solenoid 1, and to solenoid 2, exactly when the
drive-mode transition fires, and to solenoid 3 exactly when the gripper transition
fires. -/
theorem held_button_sends_nothing (s : RobotState) (i : Snapshot) :
    (i.driverLeftStickButton = true → s.togglePressed = true →
      (TeleopPeriodic s i).1.driveMode = s.driveMode
      ∧ (TeleopPeriodic s i).1.togglePressed = s.togglePressed
      ∧ solenoidValues Solenoid.solenoid1 (TeleopPeriodic s i).2 = []
      ∧ solenoidValues Solenoid.solenoid2 (TeleopPeriodic s i).2 = [])
    ∧ (i.grabberBButton = true → s.grabberOpen = true →
      (TeleopPeriodic s i).1.gripperState = s.gripperState
      ∧ (TeleopPeriodic s i).1.grabberOpen = s.grabberOpen
      ∧ solenoidValues Solenoid.solenoid3 (TeleopPeriodic s i).2 = [])
    ∧ (solenoidValues Solenoid.solenoid1 (TeleopPeriodic s i).2 ≠ []
        ↔ (i.driverLeftStickButton = true ∧ s.togglePressed = false))
    ∧ (solenoidValues Solenoid.solenoid2 (TeleopPeriodic s i).2 ≠ []
        ↔ (i.driverLeftStickButton = true ∧ s.togglePressed = false))
    ∧ (solenoidValues Solenoid.solenoid3 (TeleopPeriodic s i).2 ≠ []
        ↔ (i.grabberBButton = true ∧ s.grabberOpen = false)) := by
  rcases s with ⟨m, p, g, q⟩
  simp only [solenoidValues_tick]
  cases m <;> cases p <;> cases g <;> cases q <;>
    cases ht : i.driverLeftStickButton <;> cases hg : i.grabberBButton <;>
    simp [TeleopPeriodic, toggleDriveMode, toggleGripper, solenoidValues, ht, hg]

/-- A concrete held-button tick: in the mecanum state with `togglePressed` already
true, a tick with the toggle button pressed stays in mecanum and sends nothing to
solenoids 1 and 2. -/
theorem held_button_sends_nothing_witness :
    (TeleopPeriodic { mecanumState with togglePressed := true }
        { restSnapshot with driverLeftStickButton := true }).1.driveMode
      = DriveMode.kMecanumDrive
    ∧ solenoidValues Solenoid.solenoid1
        (TeleopPeriodic { mecanumState with togglePressed := true }
          { restSnapshot with driverLeftStickButton := true }).2 = []
    ∧ solenoidValues Solenoid.solenoid2
        (TeleopPeriodic { mecanumState with togglePressed := true }
          { restSnapshot with driverLeftStickButton := true }).2 = [] :=
  have h := (held_button_sends_nothing { mecanumState with togglePressed := true }
    { restSnapshot with driverLeftStickButton := true }).1 rfl rfl
  ⟨h.1, h.2.2.1, h.2.2.2⟩

/-- C14: the new `gripperState`, the new `grabberOpen` and what is sent to solenoid 3
are the same for any two ticks that agree on the grabber button and on the previous
`gripperState` and `grabberOpen`, whatever else differs; the new `driveMode`, the new
`togglePressed` and what is sent to solenoids 1 and 2 are the same for any two ticks
that agree on the toggle button and on the previous `driveMode` and `togglePressed`. -/
theorem mode_machines_independent (s1 s2 : RobotState) (i1 i2 : Snapshot) :
    (i1.grabberBButton = i2.grabberBButton → s1.gripperState = s2.gripperState →
      s1.grabberOpen = s2.grabberOpen →
      (TeleopPeriodic s1 i1).1.gripperState = (TeleopPeriodic s2 i2).1.gripperState
      ∧ (TeleopPeriodic s1 i1).1.grabberOpen = (TeleopPeriodic s2 i2).1.grabberOpen
      ∧ solenoidValues Solenoid.solenoid3 (TeleopPeriodic s1 i1).2
          = solenoidValues Solenoid.solenoid3 (TeleopPeriodic s2 i2).2)
    ∧ (i1.driverLeftStickButton = i2.driverLeftStickButton →
      s1.driveMode = s2.driveMode → s1.togglePressed = s2.togglePressed →
      (TeleopPeriodic s1 i1).1.driveMode = (TeleopPeriodic s2 i2).1.driveMode
      ∧ (TeleopPeriodic s1 i1).1.togglePressed = (TeleopPeriodic s2 i2).1.togglePressed
      ∧ solenoidValues Solenoid.solenoid1 (TeleopPeriodic s1 i1).2
          = solenoidValues Solenoid.solenoid1 (TeleopPeriodic s2 i2).2
      ∧ solenoidValues Solenoid.solenoid2 (TeleopPeriodic s1 i1).2
          = solenoidValues Solenoid.solenoid2 (TeleopPeriodic s2 i2).2) := by
  have hd3 : ∀ (m : DriveMode) (p b : Bool),
      solenoidValues Solenoid.solenoid3 (toggleDriveMode m p b).2.2 = [] := by
    intro m p b; cases m <;> cases p <;> cases b <;> rfl
  have hg1 : ∀ (g : GripperState) (p b : Bool),
      solenoidValues Solenoid.solenoid1 (toggleGripper g p b).2.2 = [] := by
    intro g p b; cases g <;> cases p <;> cases b <;> rfl
  have hg2 : ∀ (g : GripperState) (p b : Bool),
      solenoidValues Solenoid.solenoid2 (toggleGripper g p b).2.2 = [] := by
    intro g p b; cases g <;> cases p <;> cases b <;> rfl
  refine ⟨fun hb hs ho => ?_, fun hb hm hp => ?_⟩
  · simp only [solenoidValues_tick, hd3, List.nil_append]
    simp only [TeleopPeriodic, hb, hs, ho]
    exact ⟨trivial, trivial, trivial⟩
  · simp only [solenoidValues_tick, hg1, hg2, List.append_nil]
    simp only [TeleopPeriodic, hb, hm, hp]
    exact ⟨trivial, trivial, trivial, trivial⟩

/-- Two concrete ticks that agree only on the gripper side: the grabber button is
pressed in both, while the second also starts in mecanum, presses the toggle and target
buttons and pushes driver axis 1; both open the gripper and send solenoid 3 the same
values. -/
theorem mode_machines_independent_witness :
    (TeleopPeriodic initialState { restSnapshot with grabberBButton := true }).1.gripperState
      = (TeleopPeriodic mecanumState
          { restSnapshot with
            driverAxis1 := 1, driverLeftStickButton := true,
            driverRightStickButton := true, grabberBButton := true }).1.gripperState
    ∧ solenoidValues Solenoid.solenoid3
        (TeleopPeriodic initialState { restSnapshot with grabberBButton := true }).2
      = solenoidValues Solenoid.solenoid3
        (TeleopPeriodic mecanumState
          { restSnapshot with
            driverAxis1 := 1, driverLeftStickButton := true,
            driverRightStickButton := true, grabberBButton := true }).2 :=
  have h := (mode_machines_independent initialState mecanumState
    { restSnapshot with grabberBButton := true }
    { restSnapshot with
      driverAxis1 := 1, driverLeftStickButton := true,
      driverRightStickButton := true, grabberBButton := true }).1 rfl rfl rfl
  ⟨h.1, h.2.2⟩

/-- C17: from every state, whatever its flags, and on every snapshot, after the tick
`togglePressed` equals the tick's toggle-button reading and `grabberOpen` equals the
tick's grabber-button reading. -/
theorem flags_follow_buttons (s : RobotState) (i : Snapshot) :
    (TeleopPeriodic s i).1.togglePressed = i.driverLeftStickButton
    ∧ (TeleopPeriodic s i).1.grabberOpen = i.grabberBButton :=
  ⟨toggleDriveMode_flag _ _ _, toggleGripper_flag _ _ _⟩

/-- C15: after every run of ticks from the initial state, `driveMode` is mecanum if
the number of released-to-pressed edges of the toggle button in the run is odd and
arcade otherwise, and `gripperState` is open if the number of released-to-pressed edges
of the grabber button is odd and closed otherwise; the buttons count as released before
the first tick. -/
theorem mode_is_parity_of_edges (ticks : List Snapshot) :
    ((runTicks initialState ticks).driveMode = DriveMode.kMecanumDrive
        ↔ Odd (risingEdges false (ticks.map fun i => i.driverLeftStickButton)))
    ∧ ((runTicks initialState ticks).driveMode = DriveMode.kArcadeDrive
        ↔ ¬ Odd (risingEdges false (ticks.map fun i => i.driverLeftStickButton)))
    ∧ ((runTicks initialState ticks).gripperState = GripperState.kOpen
        ↔ Odd (risingEdges false (ticks.map fun i => i.grabberBButton)))
    ∧ ((runTicks initialState ticks).gripperState = GripperState.kClosed
        ↔ ¬ Odd (risingEdges false (ticks.map fun i => i.grabberBButton))) := by
  have hd := runTicks_driveMode_parity initialState ticks
  have hg := runTicks_gripperState_parity initialState ticks
  have ed : initialState.driveMode = DriveMode.kMecanumDrive ↔ False := by
    simp [initialState]
  have eg : initialState.gripperState = GripperState.kOpen ↔ False := by
    simp [initialState]
  have et : initialState.togglePressed = false := rfl
  have eo : initialState.grabberOpen = false := rfl
  rw [ed, et, false_iff, not_not] at hd
  rw [eg, eo, false_iff, not_not] at hg
  refine ⟨hd, ?_, hg, ?_⟩
  · rw [← hd]
    generalize (runTicks initialState ticks).driveMode = d
    cases d <;> simp
  · rw [← hg]
    generalize (runTicks initialState ticks).gripperState = d
    cases d <;> simp

/-! ## Drivetrain kinematics -/

/-- C4: on a tick whose drive mode after the mode update is arcade and whose target
button is not pressed, with `leftX = 0.6 * axis 0` and `leftY = 0.6 * axis 1` of the
driver, `leftFront` and `leftRear` are each sent exactly `leftY - leftX` and
`rightFront` and `rightRear` exactly `leftY + leftX`, whatever the size of the axes:
the tick does not clip. -/
theorem arcade_drive_commands (s : RobotState) (i : Snapshot) (leftX leftY : ℚ)
    (hX : leftX = 6 / 10 * i.driverAxis0) (hY : leftY = 6 / 10 * i.driverAxis1)
    (hmode : (TeleopPeriodic s i).1.driveMode = DriveMode.kArcadeDrive)
    (htarget : i.driverRightStickButton = false) :
    motorValues Motor.leftFront (TeleopPeriodic s i).2 = [Double.num (leftY - leftX)]
    ∧ motorValues Motor.leftRear (TeleopPeriodic s i).2 = [Double.num (leftY - leftX)]
    ∧ motorValues Motor.rightFront (TeleopPeriodic s i).2 = [Double.num (leftY + leftX)]
    ∧ motorValues Motor.rightRear (TeleopPeriodic s i).2 = [Double.num (leftY + leftX)] := by
  subst hX hY
  simp only [motorValues_tick, hmode, htarget]
  simp [driveOutputs, targetOutputs, motorValues, kThrottleCap, mul_comm]

/-- A concrete arcade tick: from the initial state, with driver axis 0 at `-2` and
axis 1 at `2`, `leftFront` is sent `12/5`, unclipped, and `rightRear` is sent `0`. -/
theorem arcade_drive_commands_witness :
    motorValues Motor.leftFront
        (TeleopPeriodic initialState
          { restSnapshot with driverAxis0 := -2, driverAxis1 := 2 }).2 = [Double.num (12 / 5)]
    ∧ motorValues Motor.rightRear
        (TeleopPeriodic initialState
          { restSnapshot with driverAxis0 := -2, driverAxis1 := 2 }).2 = [Double.num 0] := by
  have h := arcade_drive_commands initialState
    { restSnapshot with driverAxis0 := -2, driverAxis1 := 2 } (-6 / 5) (6 / 5)
    (by norm_num) (by norm_num) rfl rfl
  refine ⟨?_, ?_⟩
  · rw [h.1]; norm_num
  · rw [h.2.2.2]; norm_num

/-- C5: on a tick whose drive mode after the mode update is mecanum and whose target
button is not pressed, with `denom = max(1, |leftY| + |leftX| + |rightX|)` of the capped
driver axes, the four drive motors are each sent exactly one value:
`leftFront (leftY - leftX - rightX)/denom`, `leftRear (leftY + leftX - rightX)/denom`,
`rightFront (leftY + leftX + rightX)/denom`, `rightRear (leftY - leftX + rightX)/denom`.
For `leftY = 1, leftX = 0, rightX = 0` all four are `1`; for `leftY = 1, leftX = 1,
rightX = 0` they are `0, 1, 1, 0` in that order. -/
theorem mecanum_drive_commands (s : RobotState) (i : Snapshot) (leftX leftY rightX denom : ℚ)
    (hX : leftX = i.driverAxis0 * kThrottleCap) (hY : leftY = i.driverAxis1 * kThrottleCap)
    (hR : rightX = i.driverAxis4 * kThrottleCap)
    (hdenom : denom = max 1 (|leftY| + |leftX| + |rightX|))
    (hmode : (TeleopPeriodic s i).1.driveMode = DriveMode.kMecanumDrive)
    (htarget : i.driverRightStickButton = false) :
    (motorValues Motor.leftFront (TeleopPeriodic s i).2
        = [Double.num ((leftY - leftX - rightX) / denom)]
      ∧ motorValues Motor.leftRear (TeleopPeriodic s i).2
          = [Double.num ((leftY + leftX - rightX) / denom)]
      ∧ motorValues Motor.rightFront (TeleopPeriodic s i).2
          = [Double.num ((leftY + leftX + rightX) / denom)]
      ∧ motorValues Motor.rightRear (TeleopPeriodic s i).2
          = [Double.num ((leftY - leftX + rightX) / denom)])
    ∧ (leftY = 1 → leftX = 0 → rightX = 0 →
        motorValues Motor.leftFront (TeleopPeriodic s i).2 = [Double.num 1]
        ∧ motorValues Motor.leftRear (TeleopPeriodic s i).2 = [Double.num 1]
        ∧ motorValues Motor.rightFront (TeleopPeriodic s i).2 = [Double.num 1]
        ∧ motorValues Motor.rightRear (TeleopPeriodic s i).2 = [Double.num 1])
    ∧ (leftY = 1 → leftX = 1 → rightX = 0 →
        motorValues Motor.leftFront (TeleopPeriodic s i).2 = [Double.num 0]
        ∧ motorValues Motor.leftRear (TeleopPeriodic s i).2 = [Double.num 1]
        ∧ motorValues Motor.rightFront (TeleopPeriodic s i).2 = [Double.num 1]
        ∧ motorValues Motor.rightRear (TeleopPeriodic s i).2 = [Double.num 0]) := by
  have hgen :
      motorValues Motor.leftFront (TeleopPeriodic s i).2
          = [Double.num ((leftY - leftX - rightX) / denom)]
      ∧ motorValues Motor.leftRear (TeleopPeriodic s i).2
          = [Double.num ((leftY + leftX - rightX) / denom)]
      ∧ motorValues Motor.rightFront (TeleopPeriodic s i).2
          = [Double.num ((leftY + leftX + rightX) / denom)]
      ∧ motorValues Motor.rightRear (TeleopPeriodic s i).2
          = [Double.num ((leftY - leftX + rightX) / denom)] := by
    subst hX hY hR hdenom
    simp only [motorValues_tick, hmode, htarget]
    simp only [driveOutputs, targetOutputs, motorValues, abs_neg, max_comm (1 : ℚ)]
    simp
    and_intros <;> ring
  refine ⟨hgen, fun h1 h2 h3 => ?_, fun h1 h2 h3 => ?_⟩
  · obtain ⟨a, b, c, d⟩ := hgen
    rw [a, b, c, d, hdenom, h1, h2, h3]
    norm_num
  · obtain ⟨a, b, c, d⟩ := hgen
    rw [a, b, c, d, hdenom, h1, h2, h3]
    norm_num

/-- Two concrete mecanum ticks: driver axis 1 at `5/3` (capped to `1`) with the other
axes centred sends `1` to all four drive motors, and axes 0 and 1 both at `5/3` send
`0, 1, 1, 0`. -/
theorem mecanum_drive_commands_witness :
    (motorValues Motor.leftFront
        (TeleopPeriodic mecanumState { restSnapshot with driverAxis1 := 5 / 3 }).2 = [Double.num 1]
      ∧ motorValues Motor.leftRear
        (TeleopPeriodic mecanumState { restSnapshot with driverAxis1 := 5 / 3 }).2 = [Double.num 1]
      ∧ motorValues Motor.rightFront
        (TeleopPeriodic mecanumState { restSnapshot with driverAxis1 := 5 / 3 }).2 = [Double.num 1]
      ∧ motorValues Motor.rightRear
        (TeleopPeriodic mecanumState { restSnapshot with driverAxis1 := 5 / 3 }).2 = [Double.num 1])
    ∧ (motorValues Motor.leftFront
        (TeleopPeriodic mecanumState
          { restSnapshot with driverAxis0 := 5 / 3, driverAxis1 := 5 / 3 }).2 = [Double.num 0]
      ∧ motorValues Motor.leftRear
        (TeleopPeriodic mecanumState
          { restSnapshot with driverAxis0 := 5 / 3, driverAxis1 := 5 / 3 }).2 = [Double.num 1]
      ∧ motorValues Motor.rightFront
        (TeleopPeriodic mecanumState
          { restSnapshot with driverAxis0 := 5 / 3, driverAxis1 := 5 / 3 }).2 = [Double.num 1]
      ∧ motorValues Motor.rightRear
        (TeleopPeriodic mecanumState
          { restSnapshot with driverAxis0 := 5 / 3, driverAxis1 := 5 / 3 }).2 = [Double.num 0]) :=
  ⟨(mecanum_drive_commands mecanumState { restSnapshot with driverAxis1 := 5 / 3 }
      0 1 0 1 (by norm_num [restSnapshot]) (by norm_num [kThrottleCap])
      (by norm_num [restSnapshot]) (by norm_num) rfl rfl).2.1 rfl rfl rfl,
   (mecanum_drive_commands mecanumState
      { restSnapshot with driverAxis0 := 5 / 3, driverAxis1 := 5 / 3 }
      1 1 0 2 (by norm_num [kThrottleCap]) (by norm_num [kThrottleCap])
      (by norm_num [restSnapshot]) (by norm_num) rfl rfl).2.2 rfl rfl rfl⟩

/-- C6: for all values of `leftX`, `leftY` and `rightX`, the mecanum block sends each
drive motor one value of magnitude at most 1, and the four values are the un-normalised
sums times one common factor `c = 1/denom` with `0 < c`; `c = 1`, so the values are the
sums themselves, when `|leftY| + |leftX| + |rightX| <= 1`. The same holds of every tick
whose drive mode after the mode update is mecanum and whose target button is not
pressed: every value it sends to a drive motor is a number of magnitude at most 1. -/
theorem mecanum_commands_normalised (leftX leftY rightX : ℚ) :
    (∃ c : ℚ, 0 < c ∧ c = 1 / max 1 (|leftY| + |leftX| + |rightX|)
      ∧ (|leftY| + |leftX| + |rightX| ≤ 1 → c = 1)
      ∧ motorValues Motor.leftFront (driveOutputs DriveMode.kMecanumDrive leftX leftY rightX)
          = [Double.num (c * (leftY - leftX - rightX))]
      ∧ motorValues Motor.leftRear (driveOutputs DriveMode.kMecanumDrive leftX leftY rightX)
          = [Double.num (c * (leftY + leftX - rightX))]
      ∧ motorValues Motor.rightFront (driveOutputs DriveMode.kMecanumDrive leftX leftY rightX)
          = [Double.num (c * (leftY + leftX + rightX))]
      ∧ motorValues Motor.rightRear (driveOutputs DriveMode.kMecanumDrive leftX leftY rightX)
          = [Double.num (c * (leftY - leftX + rightX))]
      ∧ |c * (leftY - leftX - rightX)| ≤ 1 ∧ |c * (leftY + leftX - rightX)| ≤ 1
      ∧ |c * (leftY + leftX + rightX)| ≤ 1 ∧ |c * (leftY - leftX + rightX)| ≤ 1)
    ∧ (∀ (s : RobotState) (i : Snapshot),
        (TeleopPeriodic s i).1.driveMode = DriveMode.kMecanumDrive →
        i.driverRightStickButton = false →
        ∀ m : Motor, m = Motor.leftFront ∨ m = Motor.leftRear ∨ m = Motor.rightFront
            ∨ m = Motor.rightRear →
          ∀ v ∈ motorValues m (TeleopPeriodic s i).2,
            ∃ q : ℚ, v = Double.num q ∧ |q| ≤ 1) := by
  have hpos : (0 : ℚ) < max (|leftY| + |leftX| + |rightX|) 1 :=
    lt_of_lt_of_le one_pos (le_max_right _ _)
  have key : ∀ a b c n : ℚ, |n| ≤ |a| + |b| + |c| →
      |1 / max 1 (|a| + |b| + |c|) * n| ≤ 1 := by
    intro a b c n h
    have := abs_div_denominator_le a b c n h
    rwa [max_comm, div_eq_inv_mul, ← one_div] at this
  have tri : ∀ a b c : ℚ, |a + b + c| ≤ |a| + |b| + |c| := fun a b c =>
    le_trans (abs_add _ _) (add_le_add_right (abs_add _ _) _)
  refine ⟨⟨1 / max 1 (|leftY| + |leftX| + |rightX|), ?_, rfl, ?_, ?_, ?_, ?_, ?_,
      ?_, ?_, ?_, ?_⟩, ?_⟩
  · rw [max_comm]; exact one_div_pos.2 hpos
  · intro h; rw [max_eq_left h]; norm_num
  · simp [driveOutputs, motorValues, max_comm (1 : ℚ)]; ring
  · simp [driveOutputs, motorValues, max_comm (1 : ℚ)]; ring
  · simp [driveOutputs, motorValues, max_comm (1 : ℚ)]; ring
  · simp [driveOutputs, motorValues, max_comm (1 : ℚ)]; ring
  · apply key
    have := tri leftY (-leftX) (-rightX)
    simpa [sub_eq_add_neg] using this
  · apply key
    have := tri leftY leftX (-rightX)
    simpa [sub_eq_add_neg] using this
  · apply key
    exact tri leftY leftX rightX
  · apply key
    have := tri leftY (-leftX) rightX
    simpa [sub_eq_add_neg] using this
  · intro s i hmode htarget m hm v hv
    have tri2 : ∀ a b c n : ℚ, |n| ≤ |a| + |(-b)| + |(-c)| →
        |n / max (|a| + |(-b)| + |(-c)|) 1| ≤ 1 := fun a b c n h =>
      abs_div_denominator_le a (-b) (-c) n h
    rw [motorValues_tick, hmode, htarget] at hv
    rcases hm with h | h | h | h <;> subst h <;>
      simp only [driveOutputs, targetOutputs, motorValues, if_true, if_false,
        List.append_nil, reduceCtorEq, List.mem_singleton, Bool.false_eq_true] at hv <;>
      subst hv <;> refine ⟨_, rfl, ?_⟩ <;> apply tri2
    · exact tri _ _ _
    · have := tri (i.driverAxis1 * kThrottleCap) (-(-(i.driverAxis0 * kThrottleCap)))
        (-(i.driverAxis4 * kThrottleCap))
      simpa [sub_eq_add_neg] using this
    · have := tri (i.driverAxis1 * kThrottleCap) (-(-(i.driverAxis0 * kThrottleCap)))
        (-(-(i.driverAxis4 * kThrottleCap)))
      simpa [sub_eq_add_neg] using this
    · have := tri (i.driverAxis1 * kThrottleCap) (-(i.driverAxis0 * kThrottleCap))
        (-(-(i.driverAxis4 * kThrottleCap)))
      simpa [sub_eq_add_neg] using this

/-- C16: the kinematics of a tick follow the drive mode after the tick's own mode
update. On a tick where the transition fires with the target button not pressed: from
arcade the new mode is mecanum and the four drive motors are sent the mecanum values;
from mecanum the new mode is arcade and they are sent the arcade values. -/
theorem kinematics_follow_new_mode (s : RobotState) (i : Snapshot)
    (leftX leftY rightX denom : ℚ)
    (hX : leftX = i.driverAxis0 * kThrottleCap) (hY : leftY = i.driverAxis1 * kThrottleCap)
    (hR : rightX = i.driverAxis4 * kThrottleCap)
    (hdenom : denom = max 1 (|leftY| + |leftX| + |rightX|))
    (hbutton : i.driverLeftStickButton = true) (hflag : s.togglePressed = false)
    (htarget : i.driverRightStickButton = false) :
    (s.driveMode = DriveMode.kArcadeDrive →
      (TeleopPeriodic s i).1.driveMode = DriveMode.kMecanumDrive
      ∧ motorValues Motor.leftFront (TeleopPeriodic s i).2
          = [Double.num ((leftY - leftX - rightX) / denom)]
      ∧ motorValues Motor.leftRear (TeleopPeriodic s i).2
          = [Double.num ((leftY + leftX - rightX) / denom)]
      ∧ motorValues Motor.rightFront (TeleopPeriodic s i).2
          = [Double.num ((leftY + leftX + rightX) / denom)]
      ∧ motorValues Motor.rightRear (TeleopPeriodic s i).2
          = [Double.num ((leftY - leftX + rightX) / denom)])
    ∧ (s.driveMode = DriveMode.kMecanumDrive →
      (TeleopPeriodic s i).1.driveMode = DriveMode.kArcadeDrive
      ∧ motorValues Motor.leftFront (TeleopPeriodic s i).2 = [Double.num (leftY - leftX)]
      ∧ motorValues Motor.leftRear (TeleopPeriodic s i).2 = [Double.num (leftY - leftX)]
      ∧ motorValues Motor.rightFront (TeleopPeriodic s i).2 = [Double.num (leftY + leftX)]
      ∧ motorValues Motor.rightRear (TeleopPeriodic s i).2 = [Double.num (leftY + leftX)]) := by
  subst hX hY hR hdenom
  refine ⟨fun hm => ?_, fun hm => ?_⟩
  · have hnew : (TeleopPeriodic s i).1.driveMode = DriveMode.kMecanumDrive := by
      simp [TeleopPeriodic, toggleDriveMode, hm, hflag, hbutton]
    refine ⟨hnew, ?_⟩
    simp only [motorValues_tick, hnew, htarget]
    simp only [driveOutputs, targetOutputs, motorValues, abs_neg, max_comm (1 : ℚ)]
    simp
    and_intros <;> ring
  · have hnew : (TeleopPeriodic s i).1.driveMode = DriveMode.kArcadeDrive := by
      simp [TeleopPeriodic, toggleDriveMode, hm, hflag, hbutton]
    refine ⟨hnew, ?_⟩
    simp only [motorValues_tick, hnew, htarget]
    simp [driveOutputs, targetOutputs, motorValues]

/-- Two concrete transition ticks with driver axes 0 and 1 both at `1`: pressing the
toggle button in the initial state sends `leftRear` the mecanum value `1`; pressing it
in the mecanum state sends `leftRear` the arcade value `0`. -/
theorem kinematics_follow_new_mode_witness :
    motorValues Motor.leftRear
        (TeleopPeriodic initialState
          { restSnapshot with
            driverAxis0 := 1, driverAxis1 := 1, driverLeftStickButton := true }).2 = [Double.num 1]
    ∧ motorValues Motor.leftRear
        (TeleopPeriodic mecanumState
          { restSnapshot with
            driverAxis0 := 1, driverAxis1 := 1, driverLeftStickButton := true }).2
                = [Double.num 0] := by
  have h1 := (kinematics_follow_new_mode initialState
    { restSnapshot with driverAxis0 := 1, driverAxis1 := 1, driverLeftStickButton := true }
    (6 / 10) (6 / 10) 0 (12 / 10) (by norm_num [kThrottleCap]) (by norm_num [kThrottleCap])
    (by norm_num [restSnapshot]) (by norm_num [abs_of_pos]) rfl rfl rfl).1 rfl
  have h2 := (kinematics_follow_new_mode mecanumState
    { restSnapshot with driverAxis0 := 1, driverAxis1 := 1, driverLeftStickButton := true }
    (6 / 10) (6 / 10) 0 (12 / 10) (by norm_num [kThrottleCap]) (by norm_num [kThrottleCap])
    (by norm_num [restSnapshot]) (by norm_num [abs_of_pos]) rfl rfl rfl).2 rfl
  refine ⟨?_, ?_⟩
  · rw [h1.2.2.1]; norm_num
  · rw [h2.2.2.1]; norm_num

/-- C19: for pure forward or backward driving the two drive modes agree. With driver
axis 1 in `[-1, 1]`, driver axes 0 and 4 at `0` and the target button not pressed, a
tick whose mode after the update is mecanum and a tick whose mode after the update is
arcade send each of the four drive motors the same single value, `0.6 * axis 1`. -/
theorem modes_agree_on_straight_drive (s1 s2 : RobotState) (i : Snapshot)
    (hrange : |i.driverAxis1| ≤ 1) (h0 : i.driverAxis0 = 0) (h4 : i.driverAxis4 = 0)
    (htarget : i.driverRightStickButton = false)
    (hm1 : (TeleopPeriodic s1 i).1.driveMode = DriveMode.kMecanumDrive)
    (hm2 : (TeleopPeriodic s2 i).1.driveMode = DriveMode.kArcadeDrive) :
    (motorValues Motor.leftFront (TeleopPeriodic s1 i).2 = [Double.num (6 / 10 * i.driverAxis1)]
      ∧ motorValues Motor.leftRear (TeleopPeriodic s1 i).2 = [Double.num (6 / 10 * i.driverAxis1)]
      ∧ motorValues Motor.rightFront (TeleopPeriodic s1 i).2 = [Double.num (6 / 10 * i.driverAxis1)]
      ∧ motorValues Motor.rightRear (TeleopPeriodic s1 i).2 = [Double.num (6 / 10 * i.driverAxis1)])
    ∧ (motorValues Motor.leftFront (TeleopPeriodic s2 i).2 = [Double.num (6 / 10 * i.driverAxis1)]
      ∧ motorValues Motor.leftRear (TeleopPeriodic s2 i).2 = [Double.num (6 / 10 * i.driverAxis1)]
      ∧ motorValues Motor.rightFront (TeleopPeriodic s2 i).2 = [Double.num (6 / 10 * i.driverAxis1)]
      ∧ motorValues Motor.rightRear (TeleopPeriodic s2 i).2
          = [Double.num (6 / 10 * i.driverAxis1)]) := by
  have hle : |i.driverAxis1 * (6 / 10)| ≤ 1 := by
    rw [abs_mul, abs_of_pos (by norm_num : (0 : ℚ) < 6 / 10)]
    have := abs_nonneg i.driverAxis1
    linarith
  have hden : max (|i.driverAxis1 * (6 / 10)|) (1 : ℚ) = 1 := max_eq_right hle
  refine ⟨?_, ?_⟩
  · simp only [motorValues_tick, hm1, htarget, h0, h4]
    simp [driveOutputs, targetOutputs, motorValues, hden, kThrottleCap, mul_comm]
  · simp only [motorValues_tick, hm2, htarget, h0, h4]
    simp [driveOutputs, targetOutputs, motorValues, kThrottleCap, mul_comm]

/-- A concrete straight drive: with driver axis 1 at `-1` and everything else at rest,
the mecanum state and the initial (arcade) state both send `leftFront` the value
`-3/5`. -/
theorem modes_agree_on_straight_drive_witness :
    motorValues Motor.leftFront
        (TeleopPeriodic mecanumState { restSnapshot with driverAxis1 := -1 }).2
            = [Double.num (-3 / 5)]
    ∧ motorValues Motor.leftFront
        (TeleopPeriodic initialState { restSnapshot with driverAxis1 := -1 }).2
            = [Double.num (-3 / 5)] := by
  have h := modes_agree_on_straight_drive mecanumState initialState
    { restSnapshot with driverAxis1 := -1 } (by norm_num) rfl rfl rfl rfl rfl
  refine ⟨?_, ?_⟩
  · rw [h.1.1]; norm_num
  · rw [h.2.1]; norm_num

/-! ## Vision-targeting override -/

theorem abs_minCommand : |(1 / 1000 : ℚ)| = 1 / 1000 := abs_of_pos (by norm_num)

theorem abs_maxCommand : |(45 / 1000 : ℚ)| = 45 / 1000 := abs_of_pos (by norm_num)

/-- On a number the steering computation stays within the numbers: it is the clamp of
lines 136-144 read on rationals. -/
theorem steeringAdjust_num (x : ℚ) :
    steeringAdjust (Double.num x)
      = Double.num
          (if x ≠ 0 then
            (if |(if |kP * x| < minCommand then copysign minCommand (kP * x) else kP * x)|
                > maxCommand then
              copysign maxCommand
                (if |kP * x| < minCommand then copysign minCommand (kP * x) else kP * x)
            else (if |kP * x| < minCommand then copysign minCommand (kP * x) else kP * x))
          else 0) := by
  by_cases hx : x = 0
  · subst hx; simp [steeringAdjust, Double.ne]
  · by_cases h1 : |kP * x| < minCommand
    · by_cases h2 : |copysign minCommand (kP * x)| > maxCommand
      · simp [steeringAdjust, Double.ne, Double.mul, Double.abs, Double.lt, Double.gt,
          Double.copysign, hx, h1, h2]
      · simp [steeringAdjust, Double.ne, Double.mul, Double.abs, Double.lt, Double.gt,
          Double.copysign, hx, h1, h2]
    · by_cases h2 : |kP * x| > maxCommand
      · simp [steeringAdjust, Double.ne, Double.mul, Double.abs, Double.lt, Double.gt,
          Double.copysign, hx, h1, h2]
      · simp [steeringAdjust, Double.ne, Double.mul, Double.abs, Double.lt, Double.gt,
          Double.copysign, hx, h1, h2]

/-- The steering command for a positive offset. -/
theorem steeringAdjust_of_pos (offset : ℚ) (h : 0 < offset) :
    steeringAdjust (Double.num offset)
      = Double.num (min (max (1 / 10 * offset) (1 / 1000)) (45 / 1000)) := by
  rw [steeringAdjust_num]
  congr 1
  have hs : (0 : ℚ) < 1 / 10 * offset := by positivity
  have hne : offset ≠ 0 := ne_of_gt h
  simp only [copysign, kP, minCommand, maxCommand, if_pos hne, abs_minCommand,
    abs_maxCommand, abs_of_pos hs]
  by_cases h1 : 1 / 10 * offset < 1 / 1000
  · have e1 : max (1 / 10 * offset) (1 / 1000 : ℚ) = 1 / 1000 := max_eq_right (le_of_lt h1)
    simp only [if_pos h1, if_neg (not_lt.2 (le_of_lt hs)), e1, abs_minCommand]
    norm_num
  · have e1 : max (1 / 10 * offset) (1 / 1000 : ℚ) = 1 / 10 * offset :=
      max_eq_left (not_lt.1 h1)
    simp only [if_neg h1, e1, abs_of_pos hs]
    by_cases h2 : 1 / 10 * offset > 45 / 1000
    · rw [if_pos h2, if_neg (not_lt.2 (le_of_lt hs)), min_eq_right (le_of_lt h2)]
    · rw [if_neg h2, min_eq_left (not_lt.1 h2)]

/-- The steering command for a negative offset. -/
theorem steeringAdjust_of_neg (offset : ℚ) (h : offset < 0) :
    steeringAdjust (Double.num offset)
      = Double.num (-min (max (1 / 10 * -offset) (1 / 1000)) (45 / 1000)) := by
  rw [steeringAdjust_num]
  congr 1
  have hs : 1 / 10 * offset < 0 := by linarith
  have hne : offset ≠ 0 := ne_of_lt h
  have e0 : 1 / 10 * -offset = -(1 / 10 * offset) := by ring
  simp only [copysign, kP, minCommand, maxCommand, if_pos hne, abs_minCommand,
    abs_maxCommand, abs_of_neg hs, if_pos hs, e0]
  by_cases h1 : -(1 / 10 * offset) < 1 / 1000
  · have e1 : max (-(1 / 10 * offset)) (1 / 1000 : ℚ) = 1 / 1000 :=
      max_eq_right (le_of_lt h1)
    simp only [if_pos h1, e1, abs_neg, abs_minCommand]
    norm_num
  · have e1 : max (-(1 / 10 * offset)) (1 / 1000 : ℚ) = -(1 / 10 * offset) :=
      max_eq_left (not_lt.1 h1)
    simp only [if_neg h1, e1, abs_of_neg hs]
    by_cases h2 : -(1 / 10 * offset) > 45 / 1000
    · rw [if_pos h2, if_pos hs, min_eq_right (le_of_lt h2)]
    · rw [if_neg h2, min_eq_left (not_lt.1 h2), neg_neg]

theorem steeringAdjust_zero : steeringAdjust (Double.num 0) = Double.num 0 := by
  simp [steeringAdjust, Double.ne]

/-- A NaN offset comes out as NaN: it passes the test `!= 0.0` and neither clamp
applies. -/
theorem steeringAdjust_nan : steeringAdjust Double.nan = Double.nan := by
  simp [steeringAdjust, Double.ne, Double.mul, Double.abs, Double.lt, Double.gt]

/-- For a positive offset the steering command is a number in `[0.001, 0.045]`. -/
theorem steeringAdjust_pos_bounds (offset : ℚ) (h : 0 < offset) :
    ∃ s : ℚ, steeringAdjust (Double.num offset) = Double.num s
      ∧ 1 / 1000 ≤ s ∧ s ≤ 45 / 1000 :=
  ⟨_, steeringAdjust_of_pos offset h, le_min (le_max_right _ _) (by norm_num),
    min_le_right _ _⟩

/-- For a negative offset the steering command is a number in `[-0.045, -0.001]`. -/
theorem steeringAdjust_neg_bounds (offset : ℚ) (h : offset < 0) :
    ∃ s : ℚ, steeringAdjust (Double.num offset) = Double.num s
      ∧ -(45 / 1000) ≤ s ∧ s ≤ -(1 / 1000) :=
  ⟨_, steeringAdjust_of_neg offset h, neg_le_neg (min_le_right _ _),
    neg_le_neg (le_min (le_max_right _ _) (by norm_num))⟩

/-- On a number the steering command is a number of magnitude at most `0.045`. -/
theorem abs_steeringAdjust_le (offset : ℚ) :
    ∃ s : ℚ, steeringAdjust (Double.num offset) = Double.num s ∧ |s| ≤ 45 / 1000 := by
  rcases lt_trichotomy offset 0 with h | h | h
  · obtain ⟨s, hs, a, b⟩ := steeringAdjust_neg_bounds offset h
    refine ⟨s, hs, ?_⟩
    rw [abs_le]; constructor <;> linarith
  · refine ⟨0, by rw [h, steeringAdjust_zero], by norm_num⟩
  · obtain ⟨s, hs, a, b⟩ := steeringAdjust_pos_bounds offset h
    refine ⟨s, hs, ?_⟩
    rw [abs_le]; constructor <;> linarith

/-- The offset read from a table that holds `offset` under `"tx"`. -/
theorem GetNumber_tableWithTx (offset d : Double) :
    GetNumber (tableWithTx offset) "tx" d = offset := by
  simp [GetNumber, tableWithTx]

/-- At a NaN offset the clamped closed form is not what the code computes: the
steering command is NaN, no number at all, and a tick with the target button pressed
and NaN under `"tx"` leaves `leftFront` and `rightFront` at NaN. -/
theorem steeringAdjust_clamped_counterexample :
    steeringAdjust Double.nan = Double.nan
    ∧ ¬ (∃ q : ℚ, steeringAdjust Double.nan = Double.num q)
    ∧ finalCommand Motor.leftFront
        (TeleopPeriodic initialState
          { restSnapshot with
            driverRightStickButton := true,
            limelightTable := tableWithTx Double.nan }).2 = some Double.nan
    ∧ finalCommand Motor.rightFront
        (TeleopPeriodic initialState
          { restSnapshot with
            driverRightStickButton := true,
            limelightTable := tableWithTx Double.nan }).2 = some Double.nan := by
  have h := finalCommand_target initialState
    { restSnapshot with
      driverRightStickButton := true, limelightTable := tableWithTx Double.nan } rfl
  refine ⟨steeringAdjust_nan, ?_, ?_, ?_⟩
  · rintro ⟨q, hq⟩
    rw [steeringAdjust_nan] at hq
    cases hq
  · rw [h.1, GetNumber_tableWithTx, steeringAdjust_nan]; rfl
  · rw [h.2.2.1, GetNumber_tableWithTx, steeringAdjust_nan]

/-- C7, as amended: for every vision offset that is a number, the steering command is
`0` at offset `0` and otherwise `sign(offset) * min(max(|0.1 * offset|, 0.001), 0.045)`;
offset `0.005` gives `0.001`, offset `10` gives `0.045` and offset `-10` gives
`-0.045`. -/
theorem steeringAdjust_clamped (offset : ℚ) :
    steeringAdjust (Double.num 0) = Double.num 0
    ∧ (offset ≠ 0 → steeringAdjust (Double.num offset)
        = Double.num
            ((SignType.sign offset : ℚ) * min (max |1 / 10 * offset| (1 / 1000)) (45 / 1000)))
    ∧ steeringAdjust (Double.num (5 / 1000)) = Double.num (1 / 1000)
    ∧ steeringAdjust (Double.num 10) = Double.num (45 / 1000)
    ∧ steeringAdjust (Double.num (-10)) = Double.num (-(45 / 1000)) := by
  refine ⟨steeringAdjust_zero, fun h0 => ?_, ?_, ?_, ?_⟩
  · rcases lt_or_gt_of_ne h0 with h | h
    · have habs : |1 / 10 * offset| = 1 / 10 * -offset := by
        rw [abs_of_neg (by linarith)]; ring
      rw [sign_neg h, habs, steeringAdjust_of_neg offset h]
      simp
    · have habs : |1 / 10 * offset| = 1 / 10 * offset := abs_of_pos (by positivity)
      rw [sign_pos h, habs, steeringAdjust_of_pos offset h]
      simp
  · rw [steeringAdjust_of_pos _ (by norm_num)]; norm_num
  · rw [steeringAdjust_of_pos _ (by norm_num)]; norm_num
  · rw [steeringAdjust_of_neg _ (by norm_num)]; norm_num

/-- C8: on a tick with the target button pressed, the last command of `leftFront` and
of `leftRear` is `-steer` and the last command of `rightFront` and of `rightRear` is
`steer`, for `steer` the steering command the code computes from the tick's vision
offset, NaN included; two such ticks with the same vision offset leave the four drive
motors with the same commands, whatever their states, driver axes and other buttons. -/
theorem target_overrides_drive (s1 s2 : RobotState) (i1 i2 : Snapshot)
    (h1 : i1.driverRightStickButton = true) (h2 : i2.driverRightStickButton = true)
    (hoffset : GetNumber i1.limelightTable "tx" (Double.num 0)
      = GetNumber i2.limelightTable "tx" (Double.num 0)) :
    (finalCommand Motor.leftFront (TeleopPeriodic s1 i1).2
        = some (Double.neg (steeringAdjust (GetNumber i1.limelightTable "tx" (Double.num 0))))
      ∧ finalCommand Motor.leftRear (TeleopPeriodic s1 i1).2
        = some (Double.neg (steeringAdjust (GetNumber i1.limelightTable "tx" (Double.num 0))))
      ∧ finalCommand Motor.rightFront (TeleopPeriodic s1 i1).2
        = some (steeringAdjust (GetNumber i1.limelightTable "tx" (Double.num 0)))
      ∧ finalCommand Motor.rightRear (TeleopPeriodic s1 i1).2
        = some (steeringAdjust (GetNumber i1.limelightTable "tx" (Double.num 0))))
    ∧ (finalCommand Motor.leftFront (TeleopPeriodic s1 i1).2
        = finalCommand Motor.leftFront (TeleopPeriodic s2 i2).2
      ∧ finalCommand Motor.leftRear (TeleopPeriodic s1 i1).2
        = finalCommand Motor.leftRear (TeleopPeriodic s2 i2).2
      ∧ finalCommand Motor.rightFront (TeleopPeriodic s1 i1).2
        = finalCommand Motor.rightFront (TeleopPeriodic s2 i2).2
      ∧ finalCommand Motor.rightRear (TeleopPeriodic s1 i1).2
        = finalCommand Motor.rightRear (TeleopPeriodic s2 i2).2) := by
  obtain ⟨a1, b1, c1, d1⟩ := finalCommand_target s1 i1 h1
  obtain ⟨a2, b2, c2, d2⟩ := finalCommand_target s2 i2 h2
  refine ⟨⟨a1, b1, c1, d1⟩, ?_, ?_, ?_, ?_⟩
  · rw [a1, a2, hoffset]
  · rw [b1, b2, hoffset]
  · rw [c1, c2, hoffset]
  · rw [d1, d2, hoffset]

/-- Two concrete targeting ticks: with the target button pressed and offset `10`, a
tick from the initial state with the driver pushing axis 1 and a tick from the mecanum
state with the toggle button pressed and axis 0 pushed both leave `leftFront` at
`-0.045` and `rightRear` at `0.045`. -/
theorem target_overrides_drive_witness :
    finalCommand Motor.leftFront
        (TeleopPeriodic initialState
          { restSnapshot with
            driverAxis1 := 1, driverRightStickButton := true,
            limelightTable := tableWithTx (Double.num 10) }).2
      = some (Double.num (-(45 / 1000)))
    ∧ finalCommand Motor.rightRear
        (TeleopPeriodic initialState
          { restSnapshot with
            driverAxis1 := 1, driverRightStickButton := true,
            limelightTable := tableWithTx (Double.num 10) }).2
      = some (Double.num (45 / 1000))
    ∧ finalCommand Motor.leftFront
        (TeleopPeriodic mecanumState
          { restSnapshot with
            driverAxis0 := -1, driverLeftStickButton := true,
            driverRightStickButton := true,
            limelightTable := tableWithTx (Double.num 10) }).2
      = some (Double.num (-(45 / 1000))) := by
  have h := target_overrides_drive initialState mecanumState
    { restSnapshot with
      driverAxis1 := 1, driverRightStickButton := true,
      limelightTable := tableWithTx (Double.num 10) }
    { restSnapshot with
      driverAxis0 := -1, driverLeftStickButton := true, driverRightStickButton := true,
      limelightTable := tableWithTx (Double.num 10) }
    rfl rfl rfl
  have hsteer : steeringAdjust (GetNumber (tableWithTx (Double.num 10)) "tx" (Double.num 0))
      = Double.num (45 / 1000) := by
    rw [GetNumber_tableWithTx, steeringAdjust_of_pos _ (by norm_num)]; norm_num
  refine ⟨?_, ?_, ?_⟩
  · rw [h.1.1, hsteer]; rfl
  · rw [h.1.2.2.2, hsteer]
  · rw [← h.2.1, h.1.1, hsteer]; rfl

/-- A NaN offset is a non-zero offset for the code (`NaN != 0.0` holds), and its
steering command is NaN: not a number of magnitude at most `0.045`, nor one of
magnitude at least `0.001`. -/
theorem steeringAdjust_bounds_counterexample :
    Double.ne Double.nan (Double.num 0) = true
    ∧ steeringAdjust Double.nan = Double.nan
    ∧ ¬ (∃ q : ℚ, steeringAdjust Double.nan = Double.num q ∧ |q| ≤ 45 / 1000)
    ∧ ¬ (∃ q : ℚ, steeringAdjust Double.nan = Double.num q ∧ 1 / 1000 ≤ |q|) := by
  refine ⟨rfl, steeringAdjust_nan, ?_, ?_⟩
  · rintro ⟨q, hq, _⟩
    rw [steeringAdjust_nan] at hq
    cases hq
  · rintro ⟨q, hq, _⟩
    rw [steeringAdjust_nan] at hq
    cases hq

/-- C18, as amended: over the vision offsets that are numbers, zero included, the
steering command is a number and a monotone non-decreasing function of the offset; its
magnitude never exceeds `0.045`; and for a non-zero offset its magnitude is at least
`0.001` and its sign is the sign of the offset. -/
theorem steeringAdjust_monotone_bounded :
    (∀ a b : ℚ, a ≤ b →
      ∃ sa sb : ℚ, steeringAdjust (Double.num a) = Double.num sa
        ∧ steeringAdjust (Double.num b) = Double.num sb ∧ sa ≤ sb)
    ∧ (∀ x : ℚ, ∃ sx : ℚ, steeringAdjust (Double.num x) = Double.num sx
        ∧ |sx| ≤ 45 / 1000
        ∧ (x ≠ 0 → 1 / 1000 ≤ |sx| ∧ SignType.sign sx = SignType.sign x)) := by
  refine ⟨fun a b hab => ?_, fun x => ?_⟩
  · rcases lt_trichotomy a 0 with ha | ha | ha
    · rcases lt_trichotomy b 0 with hb | hb | hb
      · refine ⟨_, _, steeringAdjust_of_neg a ha, steeringAdjust_of_neg b hb, ?_⟩
        apply neg_le_neg
        exact min_le_min (max_le_max (by linarith) le_rfl) le_rfl
      · obtain ⟨sa, hsa, _, hi⟩ := steeringAdjust_neg_bounds a ha
        refine ⟨sa, 0, hsa, by rw [hb, steeringAdjust_zero], ?_⟩
        linarith
      · obtain ⟨sa, hsa, _, hi⟩ := steeringAdjust_neg_bounds a ha
        obtain ⟨sb, hsb, lo, _⟩ := steeringAdjust_pos_bounds b hb
        refine ⟨sa, sb, hsa, hsb, ?_⟩
        linarith
    · have hb : 0 ≤ b := ha ▸ hab
      rcases eq_or_lt_of_le hb with hb0 | hb0
      · refine ⟨0, 0, by rw [ha, steeringAdjust_zero], by rw [← hb0, steeringAdjust_zero],
          le_rfl⟩
      · obtain ⟨sb, hsb, lo, _⟩ := steeringAdjust_pos_bounds b hb0
        refine ⟨0, sb, by rw [ha, steeringAdjust_zero], hsb, ?_⟩
        linarith
    · have hb : 0 < b := lt_of_lt_of_le ha hab
      refine ⟨_, _, steeringAdjust_of_pos a ha, steeringAdjust_of_pos b hb, ?_⟩
      exact min_le_min (max_le_max (by linarith) le_rfl) le_rfl
  · rcases lt_trichotomy x 0 with h | h | h
    · obtain ⟨s, hs, lo, hi⟩ := steeringAdjust_neg_bounds x h
      have hneg : s < 0 := by linarith
      refine ⟨s, hs, ?_, fun _ => ⟨?_, ?_⟩⟩
      · rw [abs_of_neg hneg]; linarith
      · rw [abs_of_neg hneg]; linarith
      · rw [sign_neg hneg, sign_neg h]
    · refine ⟨0, by rw [h, steeringAdjust_zero], by norm_num, fun hx => absurd h hx⟩
    · obtain ⟨s, hs, lo, hi⟩ := steeringAdjust_pos_bounds x h
      have hpos : 0 < s := by linarith
      refine ⟨s, hs, ?_, fun _ => ⟨?_, ?_⟩⟩
      · rw [abs_of_pos hpos]; linarith
      · rw [abs_of_pos hpos]; linarith
      · rw [sign_pos hpos, sign_pos h]

/-! ## Range of the motor commands -/

/-- Every value of the arcade block is a number within `1.2` when the capped axes are
within `0.6`. -/
theorem driveOutputs_arcade_bound (leftX leftY rightX : ℚ) (hx : |leftX| ≤ 6 / 10)
    (hy : |leftY| ≤ 6 / 10) (m : Motor) (v : Double)
    (hv : v ∈ motorValues m (driveOutputs DriveMode.kArcadeDrive leftX leftY rightX)) :
    ∃ q : ℚ, v = Double.num q ∧ |q| ≤ 6 / 5 := by
  rw [abs_le] at hx hy
  cases m <;> simp [driveOutputs, motorValues] at hv <;> subst hv <;>
    refine ⟨_, rfl, ?_⟩ <;> rw [abs_le] <;> constructor <;> linarith

/-- Every value of the mecanum block is a number within `1`. -/
theorem driveOutputs_mecanum_bound (leftX leftY rightX : ℚ) (m : Motor) (v : Double)
    (hv : v ∈ motorValues m (driveOutputs DriveMode.kMecanumDrive leftX leftY rightX)) :
    ∃ q : ℚ, v = Double.num q ∧ |q| ≤ 1 := by
  have tri : ∀ a b c : ℚ, |a + b + c| ≤ |a| + |b| + |c| := fun a b c =>
    le_trans (abs_add _ _) (add_le_add_right (abs_add _ _) _)
  cases m <;>
    simp only [driveOutputs, motorValues, if_true, if_false, reduceCtorEq,
      List.mem_singleton, List.not_mem_nil] at hv <;>
    subst hv <;> refine ⟨_, rfl, ?_⟩ <;> apply abs_div_denominator_le
  · exact tri _ _ _
  · have := tri leftY (-(-leftX)) (-rightX)
    simpa [sub_eq_add_neg] using this
  · have := tri leftY (-(-leftX)) (-(-rightX))
    simpa [sub_eq_add_neg] using this
  · have := tri leftY (-leftX) (-(-rightX))
    simpa [sub_eq_add_neg] using this

/-- Every value of the targeting block is a number within `0.045` when the offset read
is not NaN. -/
theorem targetOutputs_bound (targetButton : Bool) (table : String → Option Double)
    (hnum : GetNumber table "tx" (Double.num 0) ≠ Double.nan) (m : Motor) (v : Double)
    (hv : v ∈ motorValues m (targetOutputs targetButton table)) :
    ∃ q : ℚ, v = Double.num q ∧ |q| ≤ 45 / 1000 := by
  cases hoff : GetNumber table "tx" (Double.num 0) with
  | nan => exact absurd hoff hnum
  | num x =>
    obtain ⟨s, hs, hle⟩ := abs_steeringAdjust_le x
    cases targetButton <;> cases m <;>
      simp [targetOutputs, motorValues, hoff, hs, Double.neg] at hv <;>
      subst hv <;> refine ⟨_, rfl, ?_⟩ <;> simpa using hle

/-- Every value of the arm block is a number within `1` when the operator axes are. -/
theorem armOutputs_bound (i : Snapshot) (hi : axesInRange i) (m : Motor) (v : Double)
    (hv : v ∈ motorValues m
      [ Event.motorSet Motor.liftArm (Double.num (-i.grabberAxis1)),
        Event.motorSet Motor.extendArm (Double.num i.grabberAxis0),
        Event.motorSet Motor.rotateWrist (Double.num (i.grabberAxis4 * kGripperCap)),
        Event.motorSet Motor.pivotWrist (Double.num (i.grabberAxis5 * kGripperCap)) ]) :
    ∃ q : ℚ, v = Double.num q ∧ |q| ≤ 1 := by
  obtain ⟨_, _, _, h0, h1, h4, h5⟩ := hi
  rw [abs_le] at h0 h1 h4 h5
  cases m <;> simp [motorValues, kGripperCap] at hv <;> subst hv <;>
    refine ⟨_, rfl, ?_⟩ <;> rw [abs_le] <;> constructor <;> linarith

/-- Two ticks whose raw axes all lie in `[-1, 1]` and that send a motor a value outside
`[-1, 1]`. In the initial (arcade) state, with driver axis 0 at `-1` and axis 1 at `1`,
`leftFront` is sent `6/5`. In the mecanum state, with the target button pressed and NaN
under `"tx"`, `rightFront` is left at NaN, which is no number of any magnitude. -/
theorem commands_in_unit_range_counterexample :
    (axesInRange { restSnapshot with driverAxis0 := -1, driverAxis1 := 1 }
      ∧ motorValues Motor.leftFront
          (TeleopPeriodic initialState
            { restSnapshot with driverAxis0 := -1, driverAxis1 := 1 }).2
        = [Double.num (6 / 5)]
      ∧ ¬ (∀ (m : Motor) (v : Double),
            v ∈ motorValues m
              (TeleopPeriodic initialState
                { restSnapshot with driverAxis0 := -1, driverAxis1 := 1 }).2 →
            ∃ q : ℚ, v = Double.num q ∧ |q| ≤ 1))
    ∧ (axesInRange
        { restSnapshot with
          driverRightStickButton := true, limelightTable := tableWithTx Double.nan }
      ∧ finalCommand Motor.rightFront
          (TeleopPeriodic mecanumState
            { restSnapshot with
              driverRightStickButton := true,
              limelightTable := tableWithTx Double.nan }).2 = some Double.nan
      ∧ ¬ (∀ (m : Motor) (v : Double),
            v ∈ motorValues m
              (TeleopPeriodic mecanumState
                { restSnapshot with
                  driverRightStickButton := true,
                  limelightTable := tableWithTx Double.nan }).2 →
            ∃ q : ℚ, v = Double.num q ∧ |q| ≤ 6 / 5)) := by
  have hval : motorValues Motor.leftFront
      (TeleopPeriodic initialState
        { restSnapshot with driverAxis0 := -1, driverAxis1 := 1 }).2
      = [Double.num (6 / 5)] := by
    simp only [motorValues_tick]
    simp [TeleopPeriodic, toggleDriveMode, initialState, restSnapshot, driveOutputs,
      targetOutputs, motorValues, kThrottleCap]
    norm_num
  have hnan : finalCommand Motor.rightFront
      (TeleopPeriodic mecanumState
        { restSnapshot with
          driverRightStickButton := true,
          limelightTable := tableWithTx Double.nan }).2 = some Double.nan := by
    rw [(finalCommand_target mecanumState
      { restSnapshot with
        driverRightStickButton := true, limelightTable := tableWithTx Double.nan }
      rfl).2.2.1, GetNumber_tableWithTx, steeringAdjust_nan]
  refine ⟨⟨?_, hval, fun h => ?_⟩, ⟨?_, hnan, fun h => ?_⟩⟩
  · simp [axesInRange, restSnapshot]
  · obtain ⟨q, hq, hle⟩ := h Motor.leftFront (Double.num (6 / 5)) (by rw [hval]; simp)
    cases hq
    rw [abs_of_pos (by norm_num : (0 : ℚ) < 6 / 5)] at hle
    norm_num at hle
  · simp [axesInRange, restSnapshot]
  · obtain ⟨q, hq, _⟩ := h Motor.rightFront Double.nan
      (List.mem_of_getLast?_eq_some hnan)
    cases hq

/-- C11, as amended: on every tick whose raw controller axes all lie in `[-1, 1]` and
whose vision offset, when the target button is pressed, is not NaN, whatever the state,
every value sent to any of the eight motors is a number of magnitude at most `1.2`;
every value sent to the lift, extension, wrist-rotate and wrist-pivot motors has
magnitude at most `1`; when the drive mode after the mode update is mecanum every value
sent to any motor has magnitude at most `1`; and when the target button is pressed the
command each drive motor is left with has magnitude at most `0.045`. -/
theorem commands_within_bounds (s : RobotState) (i : Snapshot) (hi : axesInRange i)
    (hoffset : i.driverRightStickButton = true →
      GetNumber i.limelightTable "tx" (Double.num 0) ≠ Double.nan) :
    (∀ (m : Motor) (v : Double), v ∈ motorValues m (TeleopPeriodic s i).2 →
        ∃ q : ℚ, v = Double.num q ∧ |q| ≤ 6 / 5)
    ∧ (∀ (m : Motor) (v : Double), m ≠ Motor.leftFront → m ≠ Motor.leftRear →
        m ≠ Motor.rightFront → m ≠ Motor.rightRear →
        v ∈ motorValues m (TeleopPeriodic s i).2 →
        ∃ q : ℚ, v = Double.num q ∧ |q| ≤ 1)
    ∧ ((TeleopPeriodic s i).1.driveMode = DriveMode.kMecanumDrive →
        ∀ (m : Motor) (v : Double), v ∈ motorValues m (TeleopPeriodic s i).2 →
          ∃ q : ℚ, v = Double.num q ∧ |q| ≤ 1)
    ∧ (i.driverRightStickButton = true →
        ∀ (m : Motor) (v : Double), (m = Motor.leftFront ∨ m = Motor.leftRear
            ∨ m = Motor.rightFront ∨ m = Motor.rightRear) →
          finalCommand m (TeleopPeriodic s i).2 = some v →
          ∃ q : ℚ, v = Double.num q ∧ |q| ≤ 45 / 1000) := by
  have hx : |i.driverAxis0 * kThrottleCap| ≤ 6 / 10 := by
    rw [abs_mul, kThrottleCap, abs_of_pos (by norm_num : (0 : ℚ) < 6 / 10)]
    have := hi.1
    linarith
  have hy : |i.driverAxis1 * kThrottleCap| ≤ 6 / 10 := by
    rw [abs_mul, kThrottleCap, abs_of_pos (by norm_num : (0 : ℚ) < 6 / 10)]
    have := hi.2.1
    linarith
  have widen : ∀ (b c : ℚ) (v : Double), b ≤ c →
      (∃ q : ℚ, v = Double.num q ∧ |q| ≤ b) → ∃ q : ℚ, v = Double.num q ∧ |q| ≤ c :=
    fun b c v hbc ⟨q, hq, hle⟩ => ⟨q, hq, le_trans hle hbc⟩
  have hdrive : ∀ (mode : DriveMode) (m : Motor) (v : Double),
      v ∈ motorValues m (driveOutputs mode (i.driverAxis0 * kThrottleCap)
        (i.driverAxis1 * kThrottleCap) (i.driverAxis4 * kThrottleCap)) →
      (∃ q : ℚ, v = Double.num q ∧ |q| ≤ 6 / 5)
      ∧ (mode = DriveMode.kMecanumDrive → ∃ q : ℚ, v = Double.num q ∧ |q| ≤ 1) := by
    intro mode m v hv
    cases mode
    · exact ⟨driveOutputs_arcade_bound _ _ _ hx hy m v hv, fun h => by cases h⟩
    · have h1 := driveOutputs_mecanum_bound _ _ _ m v hv
      exact ⟨widen 1 (6 / 5) v (by norm_num) h1, fun _ => h1⟩
  have htarget : ∀ (m : Motor) (v : Double),
      v ∈ motorValues m (targetOutputs i.driverRightStickButton i.limelightTable) →
      ∃ q : ℚ, v = Double.num q ∧ |q| ≤ 45 / 1000 := by
    intro m v hv
    cases hb : i.driverRightStickButton with
    | false =>
      rw [hb] at hv
      simp [targetOutputs, motorValues] at hv
    | true => exact targetOutputs_bound _ _ (hoffset hb) m v hv
  refine ⟨fun m v hv => ?_, fun m v n1 n2 n3 n4 hv => ?_, fun hmode m v hv => ?_,
    fun hpressed m v hm hv => ?_⟩
  · rw [motorValues_tick, List.mem_append, List.mem_append] at hv
    rcases hv with (hv | hv) | hv
    · exact (hdrive _ m v hv).1
    · exact widen _ _ v (by norm_num) (htarget m v hv)
    · exact widen 1 (6 / 5) v (by norm_num) (armOutputs_bound i hi m v hv)
  · rw [motorValues_tick, List.mem_append, List.mem_append] at hv
    rcases hv with (hv | hv) | hv
    · exfalso
      generalize (TeleopPeriodic s i).1.driveMode = mode at hv
      cases mode <;> cases m <;> simp [driveOutputs, motorValues] at hv <;>
        first | exact n1 rfl | exact n2 rfl | exact n3 rfl | exact n4 rfl
    · exact widen _ _ v (by norm_num) (htarget m v hv)
    · exact armOutputs_bound i hi m v hv
  · rw [motorValues_tick, List.mem_append, List.mem_append] at hv
    rcases hv with (hv | hv) | hv
    · exact (hdrive _ m v hv).2 hmode
    · exact widen _ _ v (by norm_num) (htarget m v hv)
    · exact armOutputs_bound i hi m v hv
  · have hmem : v ∈ motorValues m
        (targetOutputs i.driverRightStickButton i.limelightTable) := by
      obtain ⟨a, b, c, d⟩ := finalCommand_target s i hpressed
      rcases hm with h | h | h | h <;> subst h
      · rw [a] at hv; cases hv; simp [targetOutputs, motorValues, hpressed]
      · rw [b] at hv; cases hv; simp [targetOutputs, motorValues, hpressed]
      · rw [c] at hv; cases hv; simp [targetOutputs, motorValues, hpressed]
      · rw [d] at hv; cases hv; simp [targetOutputs, motorValues, hpressed]
    exact htarget m v hmem

/-- A concrete in-range tick: in the mecanum state with all three driver axes at `1`,
the target button pressed and offset `10`, the raw axes lie in `[-1, 1]`, the offset is
a number, and every value the tick sends to `rightFront` is a number of magnitude at
most `1`. -/
theorem commands_within_bounds_witness :
    axesInRange
        { restSnapshot with
          driverAxis0 := 1, driverAxis1 := 1, driverAxis4 := 1,
          driverRightStickButton := true, limelightTable := tableWithTx (Double.num 10) }
    ∧ (∀ v ∈ motorValues Motor.rightFront
        (TeleopPeriodic mecanumState
          { restSnapshot with
            driverAxis0 := 1, driverAxis1 := 1, driverAxis4 := 1,
            driverRightStickButton := true,
            limelightTable := tableWithTx (Double.num 10) }).2,
        ∃ q : ℚ, v = Double.num q ∧ |q| ≤ 1) :=
  ⟨by simp [axesInRange, restSnapshot],
   fun v hv =>
    (commands_within_bounds mecanumState
      { restSnapshot with
        driverAxis0 := 1, driverAxis1 := 1, driverAxis4 := 1,
        driverRightStickButton := true, limelightTable := tableWithTx (Double.num 10) }
      (by simp [axesInRange, restSnapshot])
      (fun _ => by rw [GetNumber_tableWithTx]; exact fun h => Double.noConfusion h)).2.2.1
      rfl Motor.rightFront v hv⟩

/-! ## Arm and wrist -/

/-- C10: from every state and on every snapshot, the tick sends the lift motor exactly
`-(operator axis 1)`, the extension motor exactly `operator axis 0`, the wrist-rotate
motor exactly `0.25 * operator axis 4` and the wrist-pivot motor exactly
`0.25 * operator axis 5`. -/
theorem arm_wrist_commands (s : RobotState) (i : Snapshot) :
    motorValues Motor.liftArm (TeleopPeriodic s i).2 = [Double.num (-i.grabberAxis1)]
    ∧ motorValues Motor.extendArm (TeleopPeriodic s i).2 = [Double.num i.grabberAxis0]
    ∧ motorValues Motor.rotateWrist (TeleopPeriodic s i).2
        = [Double.num (25 / 100 * i.grabberAxis4)]
    ∧ motorValues Motor.pivotWrist (TeleopPeriodic s i).2
        = [Double.num (25 / 100 * i.grabberAxis5)] := by
  simp only [motorValues_tick]
  cases (TeleopPeriodic s i).1.driveMode <;> cases i.driverRightStickButton <;>
    simp [driveOutputs, targetOutputs, motorValues, kGripperCap, mul_comm]

end Robot
